import Mathlib

/-!
Verification of the lazy-read persistence layer (DatabaseService, SQLite-backed).

Shallow embedding: the three tables (books, notes, note_images) become lists of
row structures; each DatabaseService method becomes a Lean function on a DB
state.  Timestamps are modelled as integers (the code stores ISO-8601 strings,
whose lexicographic order agrees with time order, and only compares them).
JavaScript falsiness quirks of the source (the x-or-else-default idiom applied
to 0 and to the empty string) are modelled explicitly.
Statements that can fail (primary-key violations on INSERT) return Except;
withTransactionAsync is modelled by a wrapper that keeps the pre-state on error.
-/

namespace LazyRead

/-- Row of the books table (part_004, createTables). -/
structure BookRow where
  id : String
  title : String
  author : String
  description : Option String
  cover_uri : Option String
  created_at : Int
  updated_at : Int
deriving Repr, DecidableEq

/-- Row of the notes table.  sort_order is nullable: the column is added by
ALTER TABLE without NOT NULL, and the update path of saveNote binds the
caller-supplied value directly, which is NULL when undefined. -/
structure NoteRow where
  id : String
  book_id : String
  title : String
  page_number : Int
  sort_order : Option Int
  created_at : Int
  updated_at : Int
deriving Repr, DecidableEq

/-- Row of the note_images table.  sort_order is always written with a concrete
value by saveNote (explicit value or the position index), so it is an Int. -/
structure ImageRow where
  id : String
  note_id : String
  uri : String
  description : String
  sort_order : Int
deriving Repr, DecidableEq

/-- The SQLite database state: the three tables, rows in insertion order. -/
structure DB where
  books : List BookRow
  notes : List NoteRow
  images : List ImageRow
deriving Repr, DecidableEq

/-- Caller-facing Book entity (types/index.ts).  description and coverUri are
optional TS fields. -/
structure Book where
  id : String
  title : String
  author : String
  description : Option String
  coverUri : Option String
  createdAt : Int
  updatedAt : Int
deriving Repr, DecidableEq

/-- Caller-facing NoteImage entity.  sortOrder is declared as a number in TS
but saveNote explicitly tests whether it is undefined, so it is an Option. -/
structure NoteImage where
  id : String
  uri : String
  description : String
  sortOrder : Option Int
deriving Repr, DecidableEq

/-- Caller-facing Note entity.  sortOrder likewise explicitly tested against
undefined by saveNote. -/
structure Note where
  id : String
  bookId : String
  title : String
  pageNumber : Int
  sortOrder : Option Int
  images : List NoteImage
  createdAt : Int
  updatedAt : Int
deriving Repr, DecidableEq

/-- JavaScript `s or-else null` applied to an optional string: the empty
string is falsy, so it is coerced to null (as in `book.description || null`). -/
def orNullStr (o : Option String) : Option String :=
  if o = some "" then none else o

/-- JavaScript `v or-else -1` applied to the result of
SELECT MAX(sort_order): NULL is falsy, but so is 0
(getNextNoteSortOrder, part_004 line 436). -/
def jsOrNeg1 (o : Option Int) : Int :=
  match o with
  | none => -1
  | some v => if v = 0 then -1 else v

/-- SELECT MAX(sort_order) FROM notes WHERE book_id = ?  — MAX ignores NULLs
and is NULL when no (non-null) value exists. -/
def maxSortOrder (db : DB) (bookId : String) : Option Int :=
  ((db.notes.filter (fun n => n.book_id == bookId)).filterMap (fun n => n.sort_order)).max?

/-- DatabaseService.getNextNoteSortOrder. -/
def getNextNoteSortOrder (db : DB) (bookId : String) : Int :=
  jsOrNeg1 (maxSortOrder db bookId) + 1

/-- Comparator for nullable sort_order columns under ORDER BY ... ASC:
SQLite sorts NULL first. -/
def optIntLe (a b : Option Int) : Bool :=
  match a, b with
  | none, _ => true
  | some _, none => false
  | some x, some y => x ≤ y

/-- ORDER BY sort_order ASC, page_number ASC, created_at DESC
(getNotes, part_004 line 299). -/
def noteLe (a b : NoteRow) : Bool :=
  if a.sort_order = b.sort_order then
    if a.page_number = b.page_number then b.created_at ≤ a.created_at
    else a.page_number ≤ b.page_number
  else
    (optIntLe a.sort_order b.sort_order && !(optIntLe b.sort_order a.sort_order))

/-- ORDER BY sort_order ASC, id (image listing, part_004 line 308). -/
def imageLe (a b : ImageRow) : Bool :=
  if a.sort_order = b.sort_order then !(b.id < a.id)
  else a.sort_order ≤ b.sort_order

/-- Insert into a sorted list (used to model the sorted output of an SQL
ORDER BY clause; SQLite only promises a sorted result, so any sorting
algorithm is a faithful model). -/
def insertSorted {α : Type} (le : α → α → Bool) (a : α) : List α → List α
  | [] => [a]
  | b :: t => if le a b then a :: b :: t else b :: insertSorted le a t

/-- Insertion sort modelling ORDER BY. -/
def sortBy {α : Type} (le : α → α → Bool) : List α → List α
  | [] => []
  | a :: t => insertSorted le a (sortBy le t)

/-- Images of one note, ordered as loaded by getNotes and getNoteById. -/
def getNoteImages (db : DB) (noteId : String) : List ImageRow :=
  sortBy imageLe (db.images.filter (fun img => img.note_id == noteId))

/-- DatabaseService.getNotes.  The bookId parameter is tested for JS
truthiness, so an empty-string bookId selects all notes.  Each returned note
carries its images, loaded in the same call. -/
def getNotes (db : DB) (bookId : Option String) : List (NoteRow × List ImageRow) :=
  let rows :=
    match bookId with
    | some bid => if bid == "" then db.notes else db.notes.filter (fun n => n.book_id == bid)
    | none => db.notes
  (sortBy noteLe rows).map (fun r => (r, getNoteImages db r.id))

/-- DatabaseService.getNoteById. -/
def getNoteById (db : DB) (noteId : String) : Option (NoteRow × List ImageRow) :=
  (db.notes.find? (fun n => n.id == noteId)).map (fun r => (r, getNoteImages db r.id))

/-- DatabaseService.getBookById, mapping the row back to a Book entity. -/
def getBookById (db : DB) (bookId : String) : Option Book :=
  (db.books.find? (fun b => b.id == bookId)).map (fun r =>
    { id := r.id, title := r.title, author := r.author,
      description := r.description, coverUri := r.cover_uri,
      createdAt := r.created_at, updatedAt := r.updated_at })

/-- DatabaseService.saveBook: UPDATE when the id exists (created_at is not
rewritten), INSERT otherwise.  No validation is performed on any field. -/
def saveBook (book : Book) (db : DB) : DB :=
  match db.books.find? (fun b => b.id == book.id) with
  | some _ =>
    { db with books := db.books.map (fun r =>
        if r.id == book.id then
          { r with title := book.title, author := book.author,
                   description := orNullStr book.description,
                   cover_uri := orNullStr book.coverUri,
                   updated_at := book.updatedAt }
        else r) }
  | none =>
    { db with books := db.books ++
        [{ id := book.id, title := book.title, author := book.author,
           description := orNullStr book.description,
           cover_uri := orNullStr book.coverUri,
           created_at := book.createdAt, updated_at := book.updatedAt }] }

/-- DatabaseService.deleteBook: inside one transaction, delete the images of
the book's notes, then those notes, then the book row.  DELETE statements
never fail on an empty match. -/
def deleteBook (bookId : String) (db : DB) : DB :=
  let noteIds := (db.notes.filter (fun n => n.book_id == bookId)).map (fun n => n.id)
  { books := db.books.filter (fun b => !(b.id == bookId)),
    notes := db.notes.filter (fun n => !(n.book_id == bookId)),
    images := db.images.filter (fun img => !(noteIds.contains img.note_id)) }

/-- INSERT INTO note_images: fails with a UNIQUE constraint violation when the
primary key (id) already exists. -/
def insertImage (img : ImageRow) (db : DB) : Except String DB :=
  if db.images.any (fun i => i.id == img.id) then
    .error "UNIQUE constraint failed: note_images.id"
  else
    .ok { db with images := db.images ++ [img] }

/-- The image-insert loop of saveNote: the i-th supplied image is stored with
its explicit sortOrder, or with its position index when undefined. -/
def insertImagesFrom (noteId : String) : List NoteImage → Int → DB → Except String DB
  | [], _, db => .ok db
  | img :: rest, i, db =>
    match insertImage
        { id := img.id, note_id := noteId, uri := img.uri,
          description := img.description, sort_order := img.sortOrder.getD i } db with
    | .ok db1 => insertImagesFrom noteId rest (i + 1) db1
    | .error e => .error e

/-- The statement sequence of DatabaseService.saveNote (the body run inside
withTransactionAsync): on update, rewrite the note row (including book_id) and
delete all of its images; on insert, append a new row whose sort_order
defaults to getNextNoteSortOrder; then insert the supplied images. -/
def saveNoteBody (note : Note) (db : DB) : Except String DB :=
  match db.notes.find? (fun n => n.id == note.id) with
  | some _ =>
    let db1 : DB :=
      { db with notes := db.notes.map (fun r =>
          if r.id == note.id then
            { r with book_id := note.bookId, title := note.title,
                     page_number := note.pageNumber,
                     sort_order := note.sortOrder,
                     updated_at := note.updatedAt }
          else r) }
    let db2 : DB := { db1 with images := db1.images.filter (fun img => !(img.note_id == note.id)) }
    insertImagesFrom note.id note.images 0 db2
  | none =>
    let so : Int := note.sortOrder.getD (getNextNoteSortOrder db note.bookId)
    let row : NoteRow :=
      { id := note.id, book_id := note.bookId, title := note.title,
        page_number := note.pageNumber, sort_order := some so,
        created_at := note.createdAt, updated_at := note.updatedAt }
    insertImagesFrom note.id note.images 0 { db with notes := db.notes ++ [row] }

/-- withTransactionAsync: run the statement sequence; COMMIT on success,
ROLLBACK to the pre-state on failure, re-raising the original error. -/
def withTransaction (body : DB → Except String DB) (db : DB) : DB × Option String :=
  match body db with
  | .ok db1 => (db1, none)
  | .error e => (db, some e)

/-- DatabaseService.saveNote: its body wrapped in a transaction.  The first
component is the store after the call; the second is the propagated error. -/
def saveNote (note : Note) (db : DB) : DB × Option String :=
  withTransaction (saveNoteBody note) db

/-- The per-statement loop of updateNotesOrder: the id at index i gets
sort_order = i and a fresh updated_at, restricted to rows of the given book. -/
def applyOrderUpdates (bookId : String) (now : Int) : List String → Int → List NoteRow → List NoteRow
  | [], _, notes => notes
  | nid :: rest, i, notes =>
    applyOrderUpdates bookId now rest (i + 1)
      (notes.map (fun r =>
        if r.id == nid && r.book_id == bookId then
          { r with sort_order := some i, updated_at := now }
        else r))

/-- DatabaseService.updateNotesOrder (reorderNotes), one transaction of
UPDATE statements; an UPDATE matching no row is a silent no-op. -/
def updateNotesOrder (bookId : String) (noteIds : List String) (now : Int) (db : DB) : DB :=
  { db with notes := applyOrderUpdates bookId now noteIds 0 db.notes }

/-! ## Migration model (DatabaseService.runMigrations) -/

/-- Schema-and-data state seen by runMigrations: which of the three
ALTER-added columns exist, plus the two tables whose rows are backfilled.
A missing sort_order column is represented by the rows carrying the value the
ALTER would give them (NULL for notes is never observed: the ALTER declares
DEFAULT 0, so existing rows read 0, modelled as some 0 after the ALTER). -/
structure MigDB where
  hasCoverUri : Bool
  notesHasSortOrder : Bool
  imagesHasSortOrder : Bool
  notes : List NoteRow
  images : List ImageRow
deriving Repr, DecidableEq

/-- The backfill subquery for notes: SELECT COUNT(*) FROM notes n2 WHERE
n2.book_id = notes.book_id AND n2.created_at <= notes.created_at. -/
def backfillNote (notes : List NoteRow) (n : NoteRow) : Int :=
  ((notes.filter (fun m => m.book_id == n.book_id && decide (m.created_at ≤ n.created_at))).length : Int)

/-- The image backfill loop: per note, its images ordered by id get
sort_order = position. -/
def backfillImagePos (notes : List NoteRow) (images : List ImageRow) (img : ImageRow) : Int :=
  if notes.any (fun n => n.id == img.note_id) then
    ((sortBy (fun a b => !(b.id < a.id))
        (images.filter (fun i => i.note_id == img.note_id))).indexOf img : Int)
  else 0

/-- DatabaseService.runMigrations: three guarded additive migrations, each a
no-op when its column already exists. -/
def runMigrations (s : MigDB) : MigDB :=
  let s1 := if s.hasCoverUri then s else { s with hasCoverUri := true }
  let s2 :=
    if s1.notesHasSortOrder then s1
    else { s1 with notesHasSortOrder := true,
                   notes := s1.notes.map (fun n =>
                     { n with sort_order := some (backfillNote s1.notes n) }) }
  if s2.imagesHasSortOrder then s2
  else { s2 with imagesHasSortOrder := true,
                 images := s2.images.map (fun img =>
                   { img with sort_order := backfillImagePos s2.notes s2.images img }) }

/-! ## General list lemmas used by several claims -/

/-- Two sorted lists that are permutations of each other are equal, provided
the order is antisymmetric on the elements involved. -/
lemma sorted_perm_eq {α : Type} (le : α → α → Bool) :
    ∀ (l1 l2 : List α), l1.Perm l2 →
      l1.Pairwise (fun a b => le a b = true) →
      l2.Pairwise (fun a b => le a b = true) →
      (∀ a ∈ l1, ∀ b ∈ l1, le a b = true → le b a = true → a = b) →
      l1 = l2
  | [], l2, hp, _, _, _ => hp.nil_eq
  | a :: t1, [], hp, _, _, _ => absurd hp.symm (by simp)
  | a :: t1, b :: t2, hp, h1, h2, hanti => by
    have hmem_a : a ∈ b :: t2 := hp.subset (List.mem_cons_self a t1)
    have hab : a = b := by
      rcases List.mem_cons.mp hmem_a with h | h
      · exact h
      · have hmem_b : b ∈ a :: t1 := hp.symm.subset (List.mem_cons_self b t2)
        rcases List.mem_cons.mp hmem_b with h' | h'
        · exact h'.symm
        · have hle1 : le a b = true := (List.pairwise_cons.mp h1).1 b h'
          have hle2 : le b a = true := (List.pairwise_cons.mp h2).1 a h
          exact hanti a (List.mem_cons_self a t1) b (List.mem_cons.mpr (Or.inr h')) hle1 hle2
    subst hab
    have htail : t1.Perm t2 := hp.cons_inv
    have := sorted_perm_eq le t1 t2 htail (List.pairwise_cons.mp h1).2
      (List.pairwise_cons.mp h2).2
      (fun x hx y hy => hanti x (List.mem_cons.mpr (Or.inr hx)) y (List.mem_cons.mpr (Or.inr hy)))
    rw [this]

/-- Filtering with a pointwise weaker predicate keeps at least as many rows. -/
lemma filter_length_le {α : Type} (p q : α → Bool) :
    ∀ l : List α, (∀ x ∈ l, p x = true → q x = true) →
      (l.filter p).length ≤ (l.filter q).length
  | [], _ => Nat.le_refl _
  | a :: t, h => by
    have ht := filter_length_le p q t (fun x hx => h x (List.mem_cons.mpr (Or.inr hx)))
    by_cases hpa : p a = true
    · have hqa : q a = true := h a (List.mem_cons_self a t) hpa
      simp [List.filter_cons, hpa, hqa]
      omega
    · simp only [List.filter_cons, Bool.not_eq_true] at hpa ⊢
      rw [hpa]
      by_cases hqa : q a = true
      · simp [hqa]; omega
      · simp only [Bool.not_eq_true] at hqa
        rw [hqa]
        exact ht

/-- Filtering with a strictly weaker predicate (weaker pointwise, and strict at
one element of the list) keeps strictly more rows. -/
lemma filter_length_lt {α : Type} (p q : α → Bool) :
    ∀ l : List α, (∀ x ∈ l, p x = true → q x = true) →
      ∀ x ∈ l, q x = true → p x = false →
      (l.filter p).length < (l.filter q).length
  | [], _, x, hx, _, _ => absurd hx (List.not_mem_nil x)
  | a :: t, h, x, hx, hqx, hpx => by
    have himpt : ∀ y ∈ t, p y = true → q y = true :=
      fun y hy => h y (List.mem_cons.mpr (Or.inr hy))
    rcases List.mem_cons.mp hx with rfl | hxt
    · have hle := filter_length_le p q t himpt
      simp [List.filter_cons, hpx, hqx]
      omega
    · have hlt := filter_length_lt p q t himpt x hxt hqx hpx
      by_cases hpa : p a = true
      · have hqa : q a = true := h a (List.mem_cons_self a t) hpa
        simp [List.filter_cons, hpa, hqa]
        omega
      · simp only [Bool.not_eq_true] at hpa
        by_cases hqa : q a = true
        · simp [List.filter_cons, hpa, hqa]; omega
        · simp only [Bool.not_eq_true] at hqa
          simp [List.filter_cons, hpa, hqa]
          omega

/-- find? commutes with a map that does not change the tested field. -/
lemma find?_map_pres {α : Type} (f : α → α) (p : α → Bool)
    (hpres : ∀ a, p (f a) = p a) :
    ∀ l : List α, (l.map f).find? p = (l.find? p).map f
  | [] => rfl
  | a :: t => by
    by_cases hpa : p a = true
    · simp [List.find?_cons, hpres, hpa]
    · simp only [Bool.not_eq_true] at hpa
      simp [List.find?_cons, hpres, hpa, find?_map_pres f p hpres t]

/-- In a duplicate-free list, later entries have larger indexOf values. -/
lemma pairwise_indexOf_lt {α : Type} [DecidableEq α] :
    ∀ l : List α, l.Nodup → l.Pairwise (fun s t => l.indexOf s < l.indexOf t)
  | [], _ => List.Pairwise.nil
  | a :: t, h => by
    have hnotmem : a ∉ t := (List.nodup_cons.mp h).1
    have ht : t.Nodup := (List.nodup_cons.mp h).2
    refine List.pairwise_cons.mpr ⟨fun b hb => ?_, ?_⟩
    · have hba : b ≠ a := fun hba => hnotmem (hba ▸ hb)
      rw [List.indexOf_cons_self, List.indexOf_cons_ne t (fun h' => hba h'.symm)]
      exact Nat.succ_pos _
    · refine (pairwise_indexOf_lt t ht).imp_of_mem (fun {s} {u} hs hu hlt => ?_)
      have hsa : s ≠ a := fun h' => hnotmem (h' ▸ hs)
      have hua : u ≠ a := fun h' => hnotmem (h' ▸ hu)
      rw [List.indexOf_cons_ne t (fun h' => hsa h'.symm),
          List.indexOf_cons_ne t (fun h' => hua h'.symm)]
      exact Nat.succ_lt_succ hlt

/-! ## The sorting model: permutation and sortedness -/

lemma perm_insertSorted {α : Type} (le : α → α → Bool) (a : α) :
    ∀ l : List α, (insertSorted le a l).Perm (a :: l)
  | [] => List.Perm.refl _
  | b :: t => by
    unfold insertSorted
    by_cases h : le a b = true
    · rw [if_pos h]
    · rw [if_neg h]
      exact ((perm_insertSorted le a t).cons b).trans (List.Perm.swap a b t)

lemma perm_sortBy {α : Type} (le : α → α → Bool) :
    ∀ l : List α, (sortBy le l).Perm l
  | [] => List.Perm.refl _
  | a :: t =>
    (perm_insertSorted le a (sortBy le t)).trans ((perm_sortBy le t).cons a)

lemma sorted_insertSorted {α : Type} (le : α → α → Bool)
    (htotal : ∀ x y : α, (le x y || le y x) = true)
    (htrans : ∀ x y z : α, le x y = true → le y z = true → le x z = true) (a : α) :
    ∀ l : List α, l.Pairwise (fun x y => le x y = true) →
      (insertSorted le a l).Pairwise (fun x y => le x y = true)
  | [], _ => List.pairwise_cons.mpr ⟨fun b hb => absurd hb (List.not_mem_nil b), List.Pairwise.nil⟩
  | b :: t, h => by
    unfold insertSorted
    rcases List.pairwise_cons.mp h with ⟨hb, ht⟩
    by_cases hab : le a b = true
    · rw [if_pos hab]
      refine List.pairwise_cons.mpr ⟨fun x hx => ?_, h⟩
      rcases List.mem_cons.mp hx with rfl | hx'
      · exact hab
      · exact htrans a b x hab (hb x hx')
    · rw [if_neg hab]
      have hba : le b a = true := by
        rcases Bool.or_eq_true_iff.mp (htotal a b) with h' | h'
        · exact absurd h' hab
        · exact h'
      refine List.pairwise_cons.mpr ⟨fun x hx => ?_, sorted_insertSorted le htotal htrans a t ht⟩
      rcases (perm_insertSorted le a t).mem_iff.mp hx with hx'
      rcases List.mem_cons.mp hx' with rfl | hx''
      · exact hba
      · exact hb x hx''

lemma sorted_sortBy {α : Type} (le : α → α → Bool)
    (htotal : ∀ x y : α, (le x y || le y x) = true)
    (htrans : ∀ x y z : α, le x y = true → le y z = true → le x z = true) :
    ∀ l : List α, (sortBy le l).Pairwise (fun x y => le x y = true)
  | [] => List.Pairwise.nil
  | a :: t => sorted_insertSorted le htotal htrans a (sortBy le t) (sorted_sortBy le htotal htrans t)

/-! ## Properties of the ORDER BY comparators -/

lemma optIntLe_total (a b : Option Int) : optIntLe a b = true ∨ optIntLe b a = true := by
  cases a <;> cases b <;> simp [optIntLe] <;> omega

lemma optIntLe_trans {a b c : Option Int} (h1 : optIntLe a b = true)
    (h2 : optIntLe b c = true) : optIntLe a c = true := by
  cases a <;> cases b <;> cases c <;> simp_all [optIntLe] <;> omega

lemma optIntLe_antisymm {a b : Option Int} (h1 : optIntLe a b = true)
    (h2 : optIntLe b a = true) : a = b := by
  cases a <;> cases b <;> simp_all [optIntLe] <;> omega

lemma optIntLe_refl (a : Option Int) : optIntLe a a = true := by
  cases a <;> simp [optIntLe]

lemma noteLe_total (a b : NoteRow) : (noteLe a b || noteLe b a) = true := by
  unfold noteLe
  by_cases hso : a.sort_order = b.sort_order
  · rw [if_pos hso, if_pos hso.symm]
    by_cases hpg : a.page_number = b.page_number
    · rw [if_pos hpg, if_pos hpg.symm]
      simp only [Bool.or_eq_true, decide_eq_true_eq]
      omega
    · rw [if_neg hpg, if_neg (fun h => hpg h.symm)]
      simp only [Bool.or_eq_true, decide_eq_true_eq]
      omega
  · have hso' : b.sort_order ≠ a.sort_order := fun h => hso h.symm
    simp only [if_neg hso, if_neg hso', Bool.or_eq_true, Bool.and_eq_true, Bool.not_eq_true']
    rcases optIntLe_total a.sort_order b.sort_order with h | h
    · by_cases h2 : optIntLe b.sort_order a.sort_order = true
      · exact absurd (optIntLe_antisymm h h2) hso
      · exact Or.inl ⟨h, by simpa using h2⟩
    · by_cases h2 : optIntLe a.sort_order b.sort_order = true
      · exact absurd (optIntLe_antisymm h2 h) hso
      · exact Or.inr ⟨h, by simpa using h2⟩

lemma noteLe_trans (a b c : NoteRow) (h1 : noteLe a b = true) (h2 : noteLe b c = true) :
    noteLe a c = true := by
  unfold noteLe at h1 h2 ⊢
  by_cases hab : a.sort_order = b.sort_order <;> by_cases hbc : b.sort_order = c.sort_order
  · -- all three sort orders equal
    have hac : a.sort_order = c.sort_order := hab.trans hbc
    rw [if_pos hab] at h1; rw [if_pos hbc] at h2; rw [if_pos hac]
    by_cases hp1 : a.page_number = b.page_number <;> by_cases hp2 : b.page_number = c.page_number
    · have hp3 : a.page_number = c.page_number := hp1.trans hp2
      rw [if_pos hp1] at h1; rw [if_pos hp2] at h2; rw [if_pos hp3]
      simp only [decide_eq_true_eq] at h1 h2 ⊢
      omega
    · have hp3 : a.page_number ≠ c.page_number := fun h => hp2 (hp1.symm.trans h)
      rw [if_pos hp1] at h1; rw [if_neg hp2] at h2; rw [if_neg hp3]
      simp only [decide_eq_true_eq] at h2 ⊢
      omega
    · have hp3 : a.page_number ≠ c.page_number := fun h => hp1 (h.trans hp2.symm)
      rw [if_neg hp1] at h1; rw [if_pos hp2] at h2; rw [if_neg hp3]
      simp only [decide_eq_true_eq] at h1 ⊢
      omega
    · rw [if_neg hp1] at h1; rw [if_neg hp2] at h2
      simp only [decide_eq_true_eq] at h1 h2
      by_cases hp3 : a.page_number = c.page_number
      · -- then a.page = c.page with a ≤ b ≤ c forces a.page = b.page, contradiction
        exfalso
        exact hp1 (by omega)
      · rw [if_neg hp3]
        simp only [decide_eq_true_eq]
        omega
  · -- a,b share sort order; b,c differ strictly, so a,c differ strictly the same way
    rw [if_pos hab] at h1
    rw [if_neg hbc] at h2
    have hac : a.sort_order ≠ c.sort_order := hab ▸ hbc
    rw [if_neg hac, hab]
    exact h2
  · rw [if_neg hab] at h1
    rw [if_pos hbc] at h2
    have hac : a.sort_order ≠ c.sort_order := fun h => hab (h.trans hbc.symm)
    rw [if_neg hac, ← hbc]
    exact h1
  · rw [if_neg hab] at h1; rw [if_neg hbc] at h2
    simp only [Bool.and_eq_true, Bool.not_eq_true'] at h1 h2
    have hle : optIntLe a.sort_order c.sort_order = true :=
      optIntLe_trans h1.1 h2.1
    have hac : a.sort_order ≠ c.sort_order := by
      intro h
      have : optIntLe c.sort_order b.sort_order = true := h ▸ h1.1
      have hcb : optIntLe b.sort_order c.sort_order = true := h2.1
      exact absurd (optIntLe_antisymm hcb this) hbc
    rw [if_neg hac]
    simp only [Bool.and_eq_true, Bool.not_eq_true']
    refine ⟨hle, ?_⟩
    by_cases h : optIntLe c.sort_order a.sort_order = true
    · exfalso
      have : optIntLe c.sort_order b.sort_order = true := optIntLe_trans h h1.1
      exact absurd (optIntLe_antisymm h2.1 this) hbc
    · simpa using h

/-- With distinct sort orders, noteLe is antisymmetric. -/
lemma noteLe_antisymm_of_ne (a b : NoteRow)
    (hso : a.sort_order ≠ b.sort_order) :
    ¬(noteLe a b = true ∧ noteLe b a = true) := by
  rintro ⟨h1, h2⟩
  unfold noteLe at h1 h2
  rw [if_neg hso] at h1
  rw [if_neg (fun h => hso h.symm)] at h2
  simp only [Bool.and_eq_true, Bool.not_eq_true'] at h1 h2
  exact absurd h1.1 (by simpa using h2.2)

lemma imageLe_total (a b : ImageRow) : (imageLe a b || imageLe b a) = true := by
  unfold imageLe
  by_cases hso : a.sort_order = b.sort_order
  · rw [if_pos hso, if_pos hso.symm]
    simp only [Bool.or_eq_true, Bool.not_eq_true', decide_eq_false_iff_not]
    by_cases h : b.id < a.id
    · exact Or.inr (lt_asymm h)
    · exact Or.inl h
  · have hso' : b.sort_order ≠ a.sort_order := fun h => hso h.symm
    simp only [if_neg hso, if_neg hso', Bool.or_eq_true, decide_eq_true_eq]
    omega

lemma imageLe_trans (a b c : ImageRow) (h1 : imageLe a b = true) (h2 : imageLe b c = true) :
    imageLe a c = true := by
  unfold imageLe at h1 h2 ⊢
  by_cases hab : a.sort_order = b.sort_order <;> by_cases hbc : b.sort_order = c.sort_order
  · have hac : a.sort_order = c.sort_order := hab.trans hbc
    rw [if_pos hab] at h1; rw [if_pos hbc] at h2; rw [if_pos hac]
    simp only [Bool.not_eq_true', decide_eq_false_iff_not] at h1 h2 ⊢
    intro hlt
    rcases lt_trichotomy a.id b.id with h | h | h
    · exact h2 (lt_trans hlt h)
    · exact h2 (h ▸ hlt)
    · exact h1 h
  · rw [if_neg hbc] at h2
    have hac : a.sort_order ≠ c.sort_order := hab ▸ hbc
    rw [if_neg hac, hab]
    exact h2
  · rw [if_neg hab] at h1
    have hac : a.sort_order ≠ c.sort_order := fun h => hab (h.trans hbc.symm)
    rw [if_neg hac, ← hbc]
    exact h1
  · rw [if_neg hab] at h1; rw [if_neg hbc] at h2
    simp only [decide_eq_true_eq] at h1 h2
    by_cases hac : a.sort_order = c.sort_order
    · exfalso; exact hab (by omega)
    · rw [if_neg hac]
      simp only [decide_eq_true_eq]
      omega

/-! ## Unrolling the statement loops of saveNote and updateNotesOrder -/

/-- The rows the image-insert loop of saveNote produces when it succeeds:
the image at position i is stored with its explicit sortOrder or, when
undefined, with i. -/
def imageRows (noteId : String) : List NoteImage → Int → List ImageRow
  | [], _ => []
  | img :: rest, i =>
    { id := img.id, note_id := noteId, uri := img.uri,
      description := img.description, sort_order := img.sortOrder.getD i }
      :: imageRows noteId rest (i + 1)

lemma imageRows_note_id (noteId : String) :
    ∀ (imgs : List NoteImage) (i : Int), ∀ r ∈ imageRows noteId imgs i, r.note_id = noteId
  | [], _, r, hr => absurd hr (List.not_mem_nil r)
  | img :: rest, i, r, hr => by
    rcases List.mem_cons.mp hr with rfl | hr'
    · rfl
    · exact imageRows_note_id noteId rest (i + 1) r hr'

/-- The ids and stored sort orders of the produced rows, position by position. -/
lemma imageRows_eq_enumFrom (noteId : String) :
    ∀ (imgs : List NoteImage) (k : Nat),
      (imageRows noteId imgs (k : Int)).map (fun r => (r.id, r.sort_order)) =
        (List.enumFrom k imgs).map (fun p => (p.2.id, p.2.sortOrder.getD (p.1 : Int)))
  | [], _ => rfl
  | img :: rest, k => by
    have hk : ((k : Int) + 1) = ((k + 1 : Nat) : Int) := by push_cast; ring
    simp only [imageRows, List.map_cons, List.enumFrom]
    rw [hk, imageRows_eq_enumFrom noteId rest (k + 1)]

/-- Successful runs of the image-insert loop append exactly the produced rows
and touch no other table. -/
lemma insertImagesFrom_ok (noteId : String) :
    ∀ (imgs : List NoteImage) (i : Int) (db db' : DB),
      insertImagesFrom noteId imgs i db = .ok db' →
      db'.images = db.images ++ imageRows noteId imgs i ∧
      db'.notes = db.notes ∧ db'.books = db.books
  | [], i, db, db', h => by
    simp only [insertImagesFrom] at h
    cases h
    simp [imageRows]
  | img :: rest, i, db, db', h => by
    simp only [insertImagesFrom, insertImage] at h
    by_cases hdup : db.images.any (fun j => j.id == img.id) = true
    · rw [if_pos hdup] at h
      exact absurd h (by simp)
    · rw [if_neg hdup] at h
      have := insertImagesFrom_ok noteId rest (i + 1) _ db' h
      simp only [imageRows]
      refine ⟨?_, this.2.1, this.2.2⟩
      rw [this.1]
      simp

/-- A transaction-wrapped saveNote that reports no error ran its whole body. -/
lemma saveNote_ok {note : Note} {db db' : DB}
    (h : saveNote note db = (db', none)) : saveNoteBody note db = .ok db' := by
  unfold saveNote withTransaction at h
  cases hbody : saveNoteBody note db with
  | ok d => rw [hbody] at h; cases h; rfl
  | error e => rw [hbody] at h; cases h

/-- A failing body makes the transaction roll back and re-raise. -/
lemma saveNote_error {note : Note} {db : DB} {e : String}
    (h : saveNoteBody note db = .error e) : saveNote note db = (db, some e) := by
  unfold saveNote withTransaction
  rw [h]

/-- Normal form of the reorder loop for duplicate-free id lists: each row of
the book whose id occurs in the list gets the id's position as sort order. -/
lemma applyOrderUpdates_eq (bookId : String) (now : Int) :
    ∀ (ids : List String) (k : Nat) (notes : List NoteRow), ids.Nodup →
      applyOrderUpdates bookId now ids (k : Int) notes =
        notes.map (fun r =>
          if r.book_id = bookId ∧ r.id ∈ ids then
            { r with sort_order := some ((k : Int) + (ids.indexOf r.id : Nat)),
                     updated_at := now }
          else r)
  | [], k, notes, _ => by
    simp only [applyOrderUpdates]
    have : ∀ r : NoteRow,
        (if r.book_id = bookId ∧ r.id ∈ ([] : List String) then
          { r with sort_order := some ((k : Int) + ((([] : List String).indexOf r.id : Nat) : Int)),
                   updated_at := now }
        else r) = r := by
      intro r
      rw [if_neg]
      simp
    rw [List.map_congr_left (fun r _ => this r)]
    simp
  | nid :: rest, k, notes, hnodup => by
    have hnm : nid ∉ rest := (List.nodup_cons.mp hnodup).1
    have hrest : rest.Nodup := (List.nodup_cons.mp hnodup).2
    simp only [applyOrderUpdates]
    have hk : ((k : Int) + 1) = ((k + 1 : Nat) : Int) := by push_cast; ring
    rw [hk, applyOrderUpdates_eq bookId now rest (k + 1) _ hrest, List.map_map]
    refine List.map_congr_left (fun r _ => ?_)
    simp only [Function.comp_apply]
    by_cases hid : r.id = nid <;> by_cases hbk : r.book_id = bookId
    · -- this row is updated by the head statement, and not touched again
      have hcond : (r.id == nid && r.book_id == bookId) = true := by
        simp [hid, hbk]
      rw [if_pos hcond]
      have hmem : r.id ∈ nid :: rest := by rw [hid]; exact List.mem_cons_self nid rest
      rw [if_neg (by simp [hnm, hid] : ¬(r.book_id = bookId ∧ r.id ∈ rest)),
          if_pos ⟨hbk, hmem⟩]
      have hidx : (nid :: rest).indexOf r.id = 0 := by
        rw [hid]; exact List.indexOf_cons_self nid rest
      simp [hidx]
    · rw [if_neg (by simp [hbk] : ¬(r.id == nid && r.book_id == bookId) = true),
          if_neg (by simp [hbk] : ¬(r.book_id = bookId ∧ r.id ∈ rest)),
          if_neg (by simp [hbk] : ¬(r.book_id = bookId ∧ r.id ∈ nid :: rest))]
    · rw [if_neg (by simp [hid] : ¬(r.id == nid && r.book_id == bookId) = true)]
      by_cases hmem : r.id ∈ rest
      · rw [if_pos ⟨hbk, hmem⟩, if_pos ⟨hbk, List.mem_cons.mpr (Or.inr hmem)⟩]
        have hidx : (nid :: rest).indexOf r.id = (rest.indexOf r.id).succ :=
          List.indexOf_cons_ne rest (fun h => hid h.symm)
        have : ((k + 1 : Nat) : Int) + (rest.indexOf r.id : Nat) =
            (k : Int) + (((nid :: rest).indexOf r.id : Nat) : Int) := by
          rw [hidx]; push_cast; ring
        rw [this]
      · rw [if_neg (by simp [hmem] : ¬(r.book_id = bookId ∧ r.id ∈ rest)),
            if_neg (by simp [hid, hmem] : ¬(r.book_id = bookId ∧ r.id ∈ nid :: rest))]
    · rw [if_neg (by simp [hid] : ¬(r.id == nid && r.book_id == bookId) = true),
          if_neg (by simp [hbk] : ¬(r.book_id = bookId ∧ r.id ∈ rest)),
          if_neg (by simp [hbk] : ¬(r.book_id = bookId ∧ r.id ∈ nid :: rest))]

/-- The row transformation updateNotesOrder applies under a duplicate-free
id list. -/
def reorderedRow (bookId : String) (noteIds : List String) (now : Int) (r : NoteRow) : NoteRow :=
  if r.book_id = bookId ∧ r.id ∈ noteIds then
    { r with sort_order := some ((noteIds.indexOf r.id : Nat) : Int), updated_at := now }
  else r

lemma updateNotesOrder_eq (bookId : String) (noteIds : List String) (now : Int)
    (db : DB) (hnodup : noteIds.Nodup) :
    updateNotesOrder bookId noteIds now db =
      { db with notes := db.notes.map (reorderedRow bookId noteIds now) } := by
  unfold updateNotesOrder
  have h0 : (0 : Int) = ((0 : Nat) : Int) := rfl
  rw [h0, applyOrderUpdates_eq bookId now noteIds 0 db.notes hnodup]
  congr 1
  refine List.map_congr_left (fun r _ => ?_)
  unfold reorderedRow
  by_cases h : r.book_id = bookId ∧ r.id ∈ noteIds
  · rw [if_pos h, if_pos h]
    simp
  · rw [if_neg h, if_neg h]

/-! ## Claim C1: append position computation -/

/-- A note to be appended without an explicit sortOrder. -/
def c1note (nid : String) (t : Int) : Note :=
  { id := nid, bookId := "b1", title := "n", pageNumber := 1, sortOrder := none,
    images := [], createdAt := t, updatedAt := t }

def c1db1 : DB := (saveNote (c1note "n1" 1) { books := [], notes := [], images := [] }).1

def c1db2 : DB := (saveNote (c1note "n2" 2) c1db1).1

def c1db3 : DB := (saveNote (c1note "n3" 3) c1db2).1

/-- C1: the claim states that appending three Notes without explicit sortOrder
into an empty Book yields sortOrder 0, 1, 2 and that listNotes returns them in
insertion order.  The code disagrees: getNextNoteSortOrder coerces a maximal
existing sortOrder of 0 to -1 (the or-else operator treats 0 as falsy), so the
second and third appends also get sortOrder 0, and with equal page numbers the
created_at DESC tie-break makes listNotes return the reverse insertion order.
This theorem evaluates the code at that failing input. -/
theorem c1_code_bug :
    c1db3.notes.map (fun n => (n.id, n.sort_order)) =
      [("n1", some 0), ("n2", some 0), ("n3", some 0)] ∧
    getNextNoteSortOrder c1db1 "b1" = 0 ∧
    (getNotes c1db3 (some "b1")).map (fun p => p.1.id) = ["n3", "n2", "n1"] := by
  refine ⟨by decide, by decide, by decide⟩

/-! ## Claim C2: saveNote is atomic -/

/-- C2: whenever any statement of the saveNote sequence fails, the transaction
rolls every prior statement back: the call returns the original error, the
post-call store is exactly the pre-call store, and every note (with its
images) reads back unchanged. -/
theorem c2_saveNote_atomic (note : Note) (db : DB) (e : String)
    (h : saveNoteBody note db = .error e) :
    saveNote note db = (db, some e) ∧
    (∀ nid, getNoteById (saveNote note db).1 nid = getNoteById db nid) ∧
    (∀ b, getNotes (saveNote note db).1 b = getNotes db b) := by
  have hs := saveNote_error h
  refine ⟨hs, fun nid => by rw [hs], fun b => by rw [hs]⟩

/-- Pre-state for the C2 witness: one note with one stored image. -/
def c2db : DB :=
  { books := [],
    notes := [{ id := "n1", book_id := "b1", title := "t", page_number := 1,
                sort_order := some 0, created_at := 0, updated_at := 0 }],
    images := [{ id := "i1", note_id := "n1", uri := "u", description := "d",
                 sort_order := 0 }] }

/-- An update of that note whose image list violates the primary key (the
second image row is invalid): the second and third statements of the sequence
succeed and then the image insert fails. -/
def c2note : Note :=
  { id := "n1", bookId := "b1", title := "t2", pageNumber := 2, sortOrder := some 0,
    images := [{ id := "iA", uri := "u1", description := "d1", sortOrder := none },
               { id := "iA", uri := "u2", description := "d2", sortOrder := none }],
    createdAt := 0, updatedAt := 5 }

theorem c2_saveNote_atomic_witness :
    saveNote c2note c2db = (c2db, some "UNIQUE constraint failed: note_images.id") ∧
    getNoteById (saveNote c2note c2db).1 "n1" = getNoteById c2db "n1" := by
  have h : saveNoteBody c2note c2db = .error "UNIQUE constraint failed: note_images.id" := by
    rfl
  exact ⟨(c2_saveNote_atomic c2note c2db _ h).1,
         (c2_saveNote_atomic c2note c2db _ h).2.1 "n1"⟩

/-! ## Claim C3: no validation is performed by the upsert operations -/

def c3book : Book :=
  { id := "b1", title := "", author := "", description := none, coverUri := none,
    createdAt := 0, updatedAt := 0 }

def c3db : DB := { books := [], notes := [], images := [] }

/-- C3 as stated is false: upsertBook with an empty title and author does not
fail with a ValidationError and does not leave the store unchanged — the code
contains no validation, executes its INSERT, and the book is stored. -/
theorem c3_counterexample :
    c3book.title = "" ∧ c3book.author = "" ∧
    saveBook c3book c3db ≠ c3db ∧
    getBookById (saveBook c3book c3db) "b1" =
      some { id := "b1", title := "", author := "", description := none,
             coverUri := none, createdAt := 0, updatedAt := 0 } := by
  refine ⟨rfl, rfl, by decide, by decide⟩

/-- C3 amended: the upsert operations perform no precondition validation.
A Book with empty title or author is accepted and stored as given, and a Note
with non-positive pageNumber is accepted and stored as given (no
ValidationError exists in the code, and the store does change). -/
theorem c3_no_validation :
    (∀ (book : Book) (db : DB), book.title = "" ∨ book.author = "" →
      ∃ r, getBookById (saveBook book db) book.id = some r ∧
        r.title = book.title ∧ r.author = book.author) ∧
    (∀ (note : Note) (db : DB), note.pageNumber ≤ 0 → note.images = [] →
      (saveNote note db).2 = none ∧
      ∃ r ∈ (saveNote note db).1.notes, r.id = note.id ∧ r.page_number = note.pageNumber) := by
  constructor
  · intro book db _
    unfold saveBook getBookById
    cases hfind : db.books.find? (fun b => b.id == book.id) with
    | none =>
      simp only [List.find?_append, hfind, Option.none_or]
      have : (List.find? (fun b => b.id == book.id)
          [({ id := book.id, title := book.title, author := book.author,
              description := orNullStr book.description,
              cover_uri := orNullStr book.coverUri,
              created_at := book.createdAt, updated_at := book.updatedAt } : BookRow)]) =
          some { id := book.id, title := book.title, author := book.author,
                 description := orNullStr book.description,
                 cover_uri := orNullStr book.coverUri,
                 created_at := book.createdAt, updated_at := book.updatedAt } := by
        simp [List.find?_cons]
      rw [this]
      exact ⟨_, rfl, rfl, rfl⟩
    | some old =>
      have hpres : ∀ r : BookRow,
          ((fun b => b.id == book.id)
            (if r.id == book.id then
              { r with title := book.title, author := book.author,
                       description := orNullStr book.description,
                       cover_uri := orNullStr book.coverUri,
                       updated_at := book.updatedAt }
            else r)) = (fun b => b.id == book.id) r := by
        intro r
        by_cases h : (r.id == book.id) = true
        · rw [if_pos h]
        · rw [if_neg h]
      rw [find?_map_pres _ _ hpres, hfind]
      have hid : (old.id == book.id) = true := by
        have := List.find?_some hfind
        simpa using this
      simp only [Option.map_some', if_pos hid]
      exact ⟨_, rfl, rfl, rfl⟩
  · intro note db _ himgs
    unfold saveNote withTransaction
    cases hfind : db.notes.find? (fun n => n.id == note.id) with
    | none =>
      have hbody : saveNoteBody note db = .ok
          { db with notes := db.notes ++
              [{ id := note.id, book_id := note.bookId, title := note.title,
                 page_number := note.pageNumber,
                 sort_order := some (note.sortOrder.getD (getNextNoteSortOrder db note.bookId)),
                 created_at := note.createdAt, updated_at := note.updatedAt }] } := by
        unfold saveNoteBody
        rw [hfind, himgs]
        rfl
      rw [hbody]
      refine ⟨rfl, ?_⟩
      exact ⟨_, List.mem_append_right _ (List.mem_singleton.mpr rfl), rfl, rfl⟩
    | some ex =>
      have hbody : saveNoteBody note db = .ok
          { books := db.books,
            notes := db.notes.map (fun r =>
              if r.id == note.id then
                { r with book_id := note.bookId, title := note.title,
                         page_number := note.pageNumber,
                         sort_order := note.sortOrder,
                         updated_at := note.updatedAt }
              else r),
            images := db.images.filter (fun img => !(img.note_id == note.id)) } := by
        unfold saveNoteBody
        rw [hfind, himgs]
        rfl
      rw [hbody]
      refine ⟨rfl, ?_⟩
      have hex : ex ∈ db.notes := List.mem_of_find?_eq_some hfind
      have hid : (ex.id == note.id) = true := by
        have := List.find?_some hfind
        simpa using this
      refine ⟨_, List.mem_map_of_mem _ hex, ?_⟩
      rw [if_pos hid]
      exact ⟨by simpa using hid, rfl⟩

theorem c3_no_validation_witness :
    (∃ r, getBookById (saveBook c3book c3db) "b1" = some r ∧
      r.title = "" ∧ r.author = "") ∧
    (saveNote { id := "n0", bookId := "b1", title := "t", pageNumber := 0,
                sortOrder := none, images := [], createdAt := 0, updatedAt := 0 } c3db).2 = none := by
  constructor
  · exact c3_no_validation.1 c3book c3db (Or.inl rfl)
  · exact (c3_no_validation.2 _ c3db (by decide) rfl).1

/-! ## Claim C6: book round trip -/

lemma orNullStr_eq {o : Option String} (h : o ≠ some "") : orNullStr o = o :=
  if_neg h

def c6db : DB :=
  { books := [{ id := "b1", title := "t", author := "a", description := none,
                cover_uri := none, created_at := 0, updated_at := 0 }],
    notes := [], images := [] }

def c6book : Book :=
  { id := "b1", title := "t2", author := "a2", description := some "",
    coverUri := none, createdAt := 5, updatedAt := 7 }

/-- C6 as stated is false at this input: upserting an existing Book id with
createdAt 5 and description set to the empty string reads back with the
previously stored createdAt 0 (the UPDATE never writes created_at) and with
description null (the or-else-null idiom coerces the empty string), so the
returned Book differs from the argument in fields other than updatedAt. -/
theorem c6_counterexample :
    getBookById (saveBook c6book c6db) "b1" =
      some { id := "b1", title := "t2", author := "a2", description := none,
             coverUri := none, createdAt := 0, updatedAt := 7 } ∧
    c6book.description = some "" ∧ c6book.createdAt = 5 ∧
    ((none : Option String) ≠ some "") ∧ ((0 : Int) ≠ 5) := by
  refine ⟨by decide, rfl, rfl, by decide, by decide⟩

/-- C6 amended: for a Book whose description and coverUri are not the empty
string, upsertBook then getBook round-trips exactly when the id was absent
(insert, updatedAt returned equal to the argument's, hence at least it), and
round-trips in all fields except createdAt when the id was present (update):
createdAt keeps the previously stored value. -/
theorem c6_round_trip (book : Book) (db : DB)
    (hdesc : book.description ≠ some "") (hcover : book.coverUri ≠ some "") :
    (db.books.find? (fun b => b.id == book.id) = none →
      getBookById (saveBook book db) book.id = some book) ∧
    (∀ old, db.books.find? (fun b => b.id == book.id) = some old →
      getBookById (saveBook book db) book.id =
        some { book with createdAt := old.created_at }) := by
  constructor
  · intro hnone
    unfold saveBook getBookById
    rw [hnone]
    simp only [List.find?_append, hnone, Option.none_or]
    have : (List.find? (fun b => b.id == book.id)
        [({ id := book.id, title := book.title, author := book.author,
            description := orNullStr book.description,
            cover_uri := orNullStr book.coverUri,
            created_at := book.createdAt, updated_at := book.updatedAt } : BookRow)]) =
        some { id := book.id, title := book.title, author := book.author,
               description := orNullStr book.description,
               cover_uri := orNullStr book.coverUri,
               created_at := book.createdAt, updated_at := book.updatedAt } := by
      simp [List.find?_cons]
    rw [this, Option.map_some']
    rw [orNullStr_eq hdesc, orNullStr_eq hcover]
  · intro old hfind
    unfold saveBook getBookById
    rw [hfind]
    have hpres : ∀ r : BookRow,
        ((fun b => b.id == book.id)
          (if r.id == book.id then
            { r with title := book.title, author := book.author,
                     description := orNullStr book.description,
                     cover_uri := orNullStr book.coverUri,
                     updated_at := book.updatedAt }
          else r)) = (fun b => b.id == book.id) r := by
      intro r
      by_cases h : (r.id == book.id) = true
      · rw [if_pos h]
      · rw [if_neg h]
    rw [find?_map_pres _ _ hpres, hfind]
    have hid : (old.id == book.id) = true := by
      have := List.find?_some hfind
      simpa using this
    have hideq : old.id = book.id := by simpa using hid
    simp only [Option.map_some', if_pos hid]
    rw [orNullStr_eq hdesc, orNullStr_eq hcover, hideq]

def c6ins : Book :=
  { id := "b2", title := "t", author := "a", description := some "d",
    coverUri := none, createdAt := 3, updatedAt := 4 }

def c6upd : Book :=
  { id := "b1", title := "t3", author := "a3", description := none,
    coverUri := none, createdAt := 9, updatedAt := 10 }

theorem c6_round_trip_witness :
    getBookById (saveBook c6ins c6db) "b2" = some c6ins ∧
    getBookById (saveBook c6upd c6db) "b1" = some { c6upd with createdAt := 0 } := by
  refine ⟨(c6_round_trip c6ins c6db (by decide) (by decide)).1 (by decide), ?_⟩
  exact (c6_round_trip c6upd c6db (by decide) (by decide)).2
    ⟨"b1", "t", "a", none, none, 0, 0⟩ (by decide)

/-! ## Claim C5: migration idempotence and backfill order -/

/-- C5: running the migration step twice equals running it once (the second
run finds every column present and performs no ALTER, so no duplicate-column
failure can arise), and on a store lacking the notes ordering column the
backfill assigns each pre-existing note the count of same-book notes created
no later, which is strictly increasing along creation time within each book,
matching the prior creation-time order. -/
theorem c5_migration (s : MigDB) :
    runMigrations (runMigrations s) = runMigrations s ∧
    (s.notesHasSortOrder = false →
      (runMigrations s).notes =
        s.notes.map (fun n => { n with sort_order := some (backfillNote s.notes n) }) ∧
      ∀ n1 ∈ s.notes, ∀ n2 ∈ s.notes, n1.book_id = n2.book_id →
        n1.created_at < n2.created_at →
        backfillNote s.notes n1 < backfillNote s.notes n2) := by
  refine ⟨?_, fun hn => ⟨?_, ?_⟩⟩
  · cases hb : s.hasCoverUri <;> cases hn : s.notesHasSortOrder <;>
      cases hi : s.imagesHasSortOrder <;>
      simp [runMigrations, hb, hn, hi]
  · cases hb : s.hasCoverUri <;> cases hi : s.imagesHasSortOrder <;>
      simp [runMigrations, hb, hn, hi]
  · intro n1 h1 n2 h2 hbook hlt
    unfold backfillNote
    have himp : ∀ x ∈ s.notes,
        (x.book_id == n1.book_id && decide (x.created_at ≤ n1.created_at)) = true →
        (x.book_id == n2.book_id && decide (x.created_at ≤ n2.created_at)) = true := by
      intro x _ hx
      simp only [Bool.and_eq_true, beq_iff_eq, decide_eq_true_eq] at hx ⊢
      exact ⟨hx.1.trans hbook, by omega⟩
    have hq : (n2.book_id == n2.book_id && decide (n2.created_at ≤ n2.created_at)) = true := by
      simp
    have hp : (n2.book_id == n1.book_id && decide (n2.created_at ≤ n1.created_at)) = false := by
      have : decide (n2.created_at ≤ n1.created_at) = false := decide_eq_false (by omega)
      rw [this, Bool.and_false]
    have := filter_length_lt _ _ s.notes himp n2 h2 hq hp
    exact_mod_cast this

def c5s : MigDB :=
  { hasCoverUri := false, notesHasSortOrder := false, imagesHasSortOrder := false,
    notes := [{ id := "n1", book_id := "b1", title := "t", page_number := 1,
                sort_order := none, created_at := 1, updated_at := 1 },
              { id := "n2", book_id := "b1", title := "t", page_number := 1,
                sort_order := none, created_at := 2, updated_at := 2 }],
    images := [] }

theorem c5_migration_witness :
    runMigrations (runMigrations c5s) = runMigrations c5s ∧
    backfillNote c5s.notes
        { id := "n1", book_id := "b1", title := "t", page_number := 1,
          sort_order := none, created_at := 1, updated_at := 1 } <
      backfillNote c5s.notes
        { id := "n2", book_id := "b1", title := "t", page_number := 1,
          sort_order := none, created_at := 2, updated_at := 2 } := by
  refine ⟨(c5_migration c5s).1, ?_⟩
  exact ((c5_migration c5s).2 rfl).2 _ (by decide) _ (by decide) rfl (by decide)

/-! ## Claim C4: cascading book deletion -/

lemma mem_images_of_mem_getNoteImages {db : DB} {nid : String} {img : ImageRow}
    (h : img ∈ getNoteImages db nid) : img ∈ db.images := by
  unfold getNoteImages at h
  exact (List.mem_filter.mp ((perm_sortBy imageLe _).subset h)).1

lemma snd_eq_getNoteImages {db : DB} {b : Option String} {p : NoteRow × List ImageRow}
    (h : p ∈ getNotes db b) : p.2 = getNoteImages db p.1.id := by
  unfold getNotes at h
  rcases List.mem_map.mp h with ⟨r, _, hr⟩
  rw [← hr]

lemma snd_eq_getNoteImages_byId {db : DB} {nid : String} {p : NoteRow × List ImageRow}
    (h : getNoteById db nid = some p) : p.2 = getNoteImages db p.1.id := by
  unfold getNoteById at h
  cases hf : db.notes.find? (fun n => n.id == nid) with
  | none => rw [hf] at h; cases h
  | some r => rw [hf, Option.map_some'] at h; cases h; rfl

/-- C4: deleteBook removes, in one transaction, the book row, every note of
the book, and every image of those notes: afterwards listNotes of that book is
empty, getNote of any of its notes is not found, and any image of those notes
is gone from the images table and unreachable through any listing.  Deleting a
book id that does not exist (and, per the referential invariant, has no
notes) is a no-op, not an error. -/
theorem c4_cascade_delete (db : DB) (bookId : String)
    (hbid : bookId ≠ "")
    (hnodup : (db.notes.map (fun n => n.id)).Nodup) :
    getNotes (deleteBook bookId db) (some bookId) = [] ∧
    (∀ n ∈ db.notes, n.book_id = bookId →
      getNoteById (deleteBook bookId db) n.id = none) ∧
    (∀ img ∈ db.images, ∀ n ∈ db.notes, n.id = img.note_id → n.book_id = bookId →
      img ∉ (deleteBook bookId db).images ∧
      (∀ b p, p ∈ getNotes (deleteBook bookId db) b → img ∉ p.2) ∧
      (∀ nid p, getNoteById (deleteBook bookId db) nid = some p → img ∉ p.2)) ∧
    ((∀ b ∈ db.books, b.id ≠ bookId) → (∀ n ∈ db.notes, n.book_id ≠ bookId) →
      deleteBook bookId db = db) := by
  have hnotes : (deleteBook bookId db).notes =
      db.notes.filter (fun n => !(n.book_id == bookId)) := rfl
  have himages : (deleteBook bookId db).images =
      db.images.filter (fun img =>
        !(((db.notes.filter (fun n => n.book_id == bookId)).map (fun n => n.id)).contains
            img.note_id)) := rfl
  have hbeq : (bookId == "") = false := by
    simp only [beq_eq_false_iff_ne, ne_eq]
    exact hbid
  have hgone : ∀ img ∈ db.images, ∀ n ∈ db.notes, n.id = img.note_id → n.book_id = bookId →
      img ∉ (deleteBook bookId db).images := by
    intro img hi n hn hid hb
    rw [himages]
    intro hmem
    have := (List.mem_filter.mp hmem).2
    simp only [Bool.not_eq_true'] at this
    have hin : ((db.notes.filter (fun n => n.book_id == bookId)).map
        (fun n => n.id)).contains img.note_id = true := by
      have hnf : n ∈ db.notes.filter (fun n => n.book_id == bookId) :=
        List.mem_filter.mpr ⟨hn, by simp [hb]⟩
      have : img.note_id ∈ (db.notes.filter (fun n => n.book_id == bookId)).map
          (fun n => n.id) := List.mem_map.mpr ⟨n, hnf, hid⟩
      simpa [List.contains] using this
    rw [hin] at this
    cases this
  refine ⟨?_, ?_, ?_, ?_⟩
  · unfold getNotes
    have hfalse : ∀ n : NoteRow, ((n.book_id == bookId) && !(n.book_id == bookId)) = false := by
      intro n
      exact Bool.and_not_self _
    simp only [hbeq, Bool.false_eq_true, if_false, hnotes, List.filter_filter]
    rw [List.filter_congr (fun x _ => hfalse x)]
    simp [sortBy]
  · intro n hn hb
    unfold getNoteById
    rw [hnotes]
    have : (db.notes.filter (fun m => !(m.book_id == bookId))).find?
        (fun m => m.id == n.id) = none := by
      rw [List.find?_eq_none]
      intro x hx hxid
      have hxmem := (List.mem_filter.mp hx).1
      have hxbook := (List.mem_filter.mp hx).2
      have hxeq : x.id = n.id := by simpa using hxid
      have : x = n := List.inj_on_of_nodup_map hnodup hxmem hn hxeq
      rw [this] at hxbook
      simp [hb] at hxbook
    rw [this]
    rfl
  · intro img hi n hn hid hb
    refine ⟨hgone img hi n hn hid hb, ?_, ?_⟩
    · intro b p hp hmem
      have := snd_eq_getNoteImages hp
      rw [this] at hmem
      exact hgone img hi n hn hid hb (mem_images_of_mem_getNoteImages hmem)
    · intro nid p hp hmem
      have := snd_eq_getNoteImages_byId hp
      rw [this] at hmem
      exact hgone img hi n hn hid hb (mem_images_of_mem_getNoteImages hmem)
  · intro hbooks hnotes'
    have h1 : db.books.filter (fun b => !(b.id == bookId)) = db.books := by
      rw [List.filter_eq_self]
      intro b hbm
      simp [hbooks b hbm]
    have h2 : db.notes.filter (fun n => !(n.book_id == bookId)) = db.notes := by
      rw [List.filter_eq_self]
      intro n hnm
      simp [hnotes' n hnm]
    have h3 : db.notes.filter (fun n => n.book_id == bookId) = [] := by
      rw [List.filter_eq_nil_iff]
      intro n hnm
      simp [hnotes' n hnm]
    show ({ books := db.books.filter (fun b => !(b.id == bookId)),
            notes := db.notes.filter (fun n => !(n.book_id == bookId)),
            images := db.images.filter (fun img =>
              !(((db.notes.filter (fun n => n.book_id == bookId)).map (fun n => n.id)).contains
                  img.note_id)) } : DB) = db
    rw [h1, h2, h3]
    have h4 : db.images.filter (fun img =>
        !((([] : List NoteRow).map (fun n => n.id)).contains img.note_id)) = db.images := by
      rw [List.filter_eq_self]
      intro img _
      rfl
    rw [h4]

def c4db : DB :=
  { books := [{ id := "b1", title := "t", author := "a", description := none,
                cover_uri := none, created_at := 0, updated_at := 0 },
              { id := "b2", title := "t2", author := "a2", description := none,
                cover_uri := none, created_at := 0, updated_at := 0 }],
    notes := [{ id := "n1", book_id := "b1", title := "t", page_number := 1,
                sort_order := some 0, created_at := 0, updated_at := 0 }],
    images := [{ id := "i1", note_id := "n1", uri := "u", description := "d",
                 sort_order := 0 }] }

theorem c4_cascade_delete_witness :
    getNotes (deleteBook "b1" c4db) (some "b1") = [] ∧
    getNoteById (deleteBook "b1" c4db) "n1" = none ∧
    ({ id := "i1", note_id := "n1", uri := "u", description := "d",
       sort_order := 0 } : ImageRow) ∉ (deleteBook "b1" c4db).images ∧
    deleteBook "b3" c4db = c4db := by
  have h := c4_cascade_delete c4db "b1" (by decide) (by decide)
  have h2 := c4_cascade_delete c4db "b3" (by decide) (by decide)
  exact ⟨h.1,
         h.2.1 { id := "n1", book_id := "b1", title := "t", page_number := 1,
                 sort_order := some 0, created_at := 0, updated_at := 0 } (by decide) rfl,
         (h.2.2.1 { id := "i1", note_id := "n1", uri := "u", description := "d",
                    sort_order := 0 } (by decide)
            { id := "n1", book_id := "b1", title := "t", page_number := 1,
              sort_order := some 0, created_at := 0, updated_at := 0 } (by decide) rfl rfl).1,
         h2.2.2.2 (by decide) (by decide)⟩

/-! ## Claims C7 and C10: the update branch of saveNote -/

/-- Unfolded update branch of saveNoteBody. -/
lemma saveNoteBody_update (note : Note) (db : DB) (ex : NoteRow)
    (hfind : db.notes.find? (fun n => n.id == note.id) = some ex) :
    saveNoteBody note db =
      insertImagesFrom note.id note.images 0
        { books := db.books,
          notes := db.notes.map (fun r =>
            if r.id == note.id then
              { r with book_id := note.bookId, title := note.title,
                       page_number := note.pageNumber, sort_order := note.sortOrder,
                       updated_at := note.updatedAt }
            else r),
          images := db.images.filter (fun img => !(img.note_id == note.id)) } := by
  unfold saveNoteBody
  rw [hfind]

/-- C7: updating an existing Note replaces its stored image set by exactly the
supplied sequence — the filter of the images table on the note id afterwards
equals the rows produced from the call's image list, position by position and
in order, with each image lacking an explicit sortOrder stored under its
position index; previously stored images that are not among the produced rows
are gone (nothing is merged). -/
theorem c7_images_replaced (note : Note) (db db' : DB) (ex : NoteRow)
    (hfind : db.notes.find? (fun n => n.id == note.id) = some ex)
    (hok : saveNote note db = (db', none)) :
    db'.images.filter (fun img => img.note_id == note.id) =
      imageRows note.id note.images 0 ∧
    ((imageRows note.id note.images 0).map (fun r => (r.id, r.sort_order)) =
      note.images.enum.map (fun p => (p.2.id, p.2.sortOrder.getD (p.1 : Int)))) ∧
    (∀ img ∈ db.images, img.note_id = note.id →
      img ∉ imageRows note.id note.images 0 → img ∉ db'.images) := by
  have hbody := saveNote_ok hok
  rw [saveNoteBody_update note db ex hfind] at hbody
  obtain ⟨him, -, -⟩ := insertImagesFrom_ok note.id note.images 0 _ db' hbody
  have hfilter : db'.images =
      (db.images.filter (fun img => !(img.note_id == note.id))) ++
        imageRows note.id note.images 0 := him
  refine ⟨?_, ?_, ?_⟩
  · rw [hfilter, List.filter_append, List.filter_filter]
    have h1 : ∀ img : ImageRow,
        ((img.note_id == note.id) && !(img.note_id == note.id)) = false :=
      fun img => Bool.and_not_self _
    rw [List.filter_congr (fun x _ => h1 x)]
    have h2 : (imageRows note.id note.images 0).filter
        (fun img => img.note_id == note.id) = imageRows note.id note.images 0 := by
      rw [List.filter_eq_self]
      intro r hr
      simp [imageRows_note_id note.id note.images 0 r hr]
    rw [h2]
    simp
  · have := imageRows_eq_enumFrom note.id note.images 0
    simpa [List.enum] using this
  · intro img _ hnid hnew hmem
    rw [hfilter] at hmem
    rcases List.mem_append.mp hmem with hold | hnew'
    · have := (List.mem_filter.mp hold).2
      simp [hnid] at this
    · exact hnew hnew'

def c7db : DB :=
  { books := [],
    notes := [{ id := "n1", book_id := "b1", title := "t", page_number := 1,
                sort_order := some 0, created_at := 0, updated_at := 0 }],
    images := [{ id := "iOld", note_id := "n1", uri := "u", description := "d",
                 sort_order := 0 }] }

def c7note : Note :=
  { id := "n1", bookId := "b1", title := "t", pageNumber := 1, sortOrder := some 0,
    images := [{ id := "iA", uri := "uA", description := "dA", sortOrder := none },
               { id := "iB", uri := "uB", description := "dB", sortOrder := some 5 }],
    createdAt := 0, updatedAt := 1 }

def c7post : DB := (saveNote c7note c7db).1

theorem c7_images_replaced_witness :
    c7post.images.filter (fun img => img.note_id == c7note.id) =
      [{ id := "iA", note_id := "n1", uri := "uA", description := "dA", sort_order := 0 },
       { id := "iB", note_id := "n1", uri := "uB", description := "dB", sort_order := 5 }] ∧
    ({ id := "iOld", note_id := "n1", uri := "u", description := "d",
       sort_order := 0 } : ImageRow) ∉ c7post.images := by
  have h := c7_images_replaced c7note c7db c7post
    { id := "n1", book_id := "b1", title := "t", page_number := 1,
      sort_order := some 0, created_at := 0, updated_at := 0 } (by rfl) (by rfl)
  exact ⟨h.1.trans (by decide), h.2.2 _ (by decide) rfl (by decide)⟩

/-- C10: saving a Note whose id already exists but whose bookId differs
rewrites the stored book_id: the stored row now carries the new bookId (all
other identity fields as supplied, created_at untouched), and the note no
longer appears when listing any other book, in particular its old one. -/
theorem c10_reparent (note : Note) (db db' : DB) (ex : NoteRow)
    (hfind : db.notes.find? (fun n => n.id == note.id) = some ex)
    (hok : saveNote note db = (db', none)) :
    db'.notes.find? (fun n => n.id == note.id) =
      some { ex with book_id := note.bookId, title := note.title,
                     page_number := note.pageNumber, sort_order := note.sortOrder,
                     updated_at := note.updatedAt } ∧
    (∀ bid, bid ≠ "" → bid ≠ note.bookId →
      ∀ p ∈ getNotes db' (some bid), p.1.id ≠ note.id) := by
  have hbody := saveNote_ok hok
  rw [saveNoteBody_update note db ex hfind] at hbody
  obtain ⟨-, hn, -⟩ := insertImagesFrom_ok note.id note.images 0 _ db' hbody
  have hnotes : db'.notes = db.notes.map (fun r =>
      if r.id == note.id then
        { r with book_id := note.bookId, title := note.title,
                 page_number := note.pageNumber, sort_order := note.sortOrder,
                 updated_at := note.updatedAt }
      else r) := hn
  constructor
  · rw [hnotes]
    have hpres : ∀ r : NoteRow,
        ((fun n => n.id == note.id)
          (if r.id == note.id then
            { r with book_id := note.bookId, title := note.title,
                     page_number := note.pageNumber, sort_order := note.sortOrder,
                     updated_at := note.updatedAt }
          else r)) = (fun n => n.id == note.id) r := by
      intro r
      by_cases h : (r.id == note.id) = true
      · rw [if_pos h]
      · rw [if_neg h]
    rw [find?_map_pres _ _ hpres, hfind]
    have hid : (ex.id == note.id) = true := by
      have := List.find?_some hfind
      simpa using this
    simp only [Option.map_some', if_pos hid]
  · intro bid hne hneq p hp hpid
    unfold getNotes at hp
    have hbeq : (bid == "") = false := by
      simp only [beq_eq_false_iff_ne, ne_eq]
      exact hne
    simp only [hbeq, Bool.false_eq_true, if_false] at hp
    rcases List.mem_map.mp hp with ⟨r, hr, hpr⟩
    have hp1 : p.1 = r := by rw [← hpr]
    have hrmem : r ∈ db'.notes.filter (fun n => n.book_id == bid) :=
      (perm_sortBy noteLe _).subset hr
    have hrdb : r ∈ db'.notes := (List.mem_filter.mp hrmem).1
    have hrbid : r.book_id = bid := by
      have := (List.mem_filter.mp hrmem).2
      simpa using this
    rw [hnotes] at hrdb
    rcases List.mem_map.mp hrdb with ⟨s, _, hs⟩
    by_cases hsid : (s.id == note.id) = true
    · rw [if_pos hsid] at hs
      have : r.book_id = note.bookId := by rw [← hs]
      exact hneq (by rw [← hrbid, this])
    · rw [if_neg hsid] at hs
      have : s.id ≠ note.id := by simpa using hsid
      apply this
      rw [hs, ← hp1, hpid]

def c10db : DB :=
  { books := [],
    notes := [{ id := "n1", book_id := "b1", title := "t", page_number := 1,
                sort_order := some 0, created_at := 0, updated_at := 0 }],
    images := [] }

def c10note : Note :=
  { id := "n1", bookId := "b2", title := "t", pageNumber := 1, sortOrder := some 0,
    images := [], createdAt := 0, updatedAt := 1 }

def c10post : DB := (saveNote c10note c10db).1

theorem c10_reparent_witness :
    c10post.notes.find? (fun n => n.id == c10note.id) =
      some { id := "n1", book_id := "b2", title := "t", page_number := 1,
             sort_order := some 0, created_at := 0, updated_at := 1 } ∧
    ∀ p ∈ getNotes c10post (some "b1"), p.1.id ≠ c10note.id := by
  have h := c10_reparent c10note c10db c10post
    { id := "n1", book_id := "b1", title := "t", page_number := 1,
      sort_order := some 0, created_at := 0, updated_at := 0 } (by rfl) (by rfl)
  exact ⟨h.1.trans (by decide), h.2 "b1" (by decide) (by decide)⟩

/-! ## Claim C9: listing order and pre-loaded images -/

/-- C9: for every store state and book filter, getNotes returns the matching
note rows sorted by the ORDER BY comparator (ascending sort_order, then
ascending page_number, then descending created_at — a total, transitive
comparison by noteLe_total and noteLe_trans), as a permutation of the matching
rows, and each returned note carries its full image list, itself a permutation
of that note's rows in the images table sorted by the image comparator,
loaded in the same call. -/
theorem c9_listing (db : DB) (bookId : Option String) :
    List.Pairwise (fun p q : NoteRow × List ImageRow => noteLe p.1 q.1 = true)
      (getNotes db bookId) ∧
    ((getNotes db bookId).map (fun p => p.1)).Perm
      (match bookId with
       | some bid => if bid == "" then db.notes
                     else db.notes.filter (fun n => n.book_id == bid)
       | none => db.notes) ∧
    (∀ p ∈ getNotes db bookId,
      p.2 = getNoteImages db p.1.id ∧
      p.2.Perm (db.images.filter (fun img => img.note_id == p.1.id)) ∧
      List.Pairwise (fun a b : ImageRow => imageLe a b = true) p.2) := by
  refine ⟨?_, ?_, ?_⟩
  · unfold getNotes
    exact List.pairwise_map.mpr (sorted_sortBy noteLe noteLe_total noteLe_trans _)
  · have hmap : (getNotes db bookId).map (fun p => p.1) =
        sortBy noteLe (match bookId with
          | some bid => if bid == "" then db.notes
                        else db.notes.filter (fun n => n.book_id == bid)
          | none => db.notes) := by
      unfold getNotes
      rw [List.map_map]
      exact List.map_id _
    rw [hmap]
    exact perm_sortBy noteLe _
  · intro p hp
    unfold getNotes at hp
    rcases List.mem_map.mp hp with ⟨r, _, hpr⟩
    have h2 : p.2 = getNoteImages db p.1.id := by rw [← hpr]
    refine ⟨h2, ?_, ?_⟩
    · rw [h2]
      exact perm_sortBy imageLe _
    · rw [h2]
      exact sorted_sortBy imageLe imageLe_total imageLe_trans _

/-! ## Claim C8: reorderNotes -/

/-- Placeholder row (never actually selected in the proofs below). -/
def dummyNoteRow : NoteRow :=
  { id := "", book_id := "", title := "", page_number := 0, sort_order := none,
    created_at := 0, updated_at := 0 }

lemma reorderedRow_id (bookId : String) (noteIds : List String) (now : Int) (r : NoteRow) :
    (reorderedRow bookId noteIds now r).id = r.id := by
  unfold reorderedRow
  by_cases h : r.book_id = bookId ∧ r.id ∈ noteIds
  · rw [if_pos h]
  · rw [if_neg h]

lemma reorderedRow_book_id (bookId : String) (noteIds : List String) (now : Int) (r : NoteRow) :
    (reorderedRow bookId noteIds now r).book_id = r.book_id := by
  unfold reorderedRow
  by_cases h : r.book_id = bookId ∧ r.id ∈ noteIds
  · rw [if_pos h]
  · rw [if_neg h]

lemma reorderedRow_idem (bookId : String) (noteIds : List String) (now : Int) (r : NoteRow) :
    reorderedRow bookId noteIds now (reorderedRow bookId noteIds now r) =
      reorderedRow bookId noteIds now r := by
  by_cases h : r.book_id = bookId ∧ r.id ∈ noteIds
  · simp only [reorderedRow, if_pos h]
  · simp only [reorderedRow, if_neg h]

/-- The strict first component of the comparator decides the order. -/
lemma noteLe_of_sort_lt (a b : NoteRow) (i j : Int)
    (ha : a.sort_order = some i) (hb : b.sort_order = some j) (hij : i < j) :
    noteLe a b = true := by
  unfold noteLe
  simp only [ha, hb]
  rw [if_neg (by simp only [Option.some.injEq]; omega : ¬(some i = some j))]
  simp only [optIntLe, Bool.and_eq_true, Bool.not_eq_true', decide_eq_true_eq,
    decide_eq_false_iff_not]
  omega

/-- Filtering the reordered table to the book equals the reordered filter. -/
lemma reorder_filter (db : DB) (bookId : String) (noteIds : List String) (now : Int)
    (hnodup : noteIds.Nodup) :
    (updateNotesOrder bookId noteIds now db).notes.filter (fun n => n.book_id == bookId) =
      (db.notes.filter (fun n => n.book_id == bookId)).map
        (reorderedRow bookId noteIds now) := by
  rw [updateNotesOrder_eq bookId noteIds now db hnodup]
  show (db.notes.map (reorderedRow bookId noteIds now)).filter
      (fun n => n.book_id == bookId) = _
  rw [List.filter_map]
  congr 1
  refine List.filter_congr (fun r _ => ?_)
  show ((reorderedRow bookId noteIds now r).book_id == bookId) = (r.book_id == bookId)
  rw [reorderedRow_book_id]

/-- Core of C8: after reorderNotes with a duplicate-free id list containing
every note id of the book (ids not belonging to the book may also appear and
are ignored), listNotes returns exactly the given sequence restricted to the
ids that do belong to the book. -/
lemma reorder_listing (db : DB) (bookId : String) (noteIds : List String) (now : Int)
    (hbid : bookId ≠ "")
    (hnodupDb : (db.notes.map (fun n => n.id)).Nodup)
    (hnodup : noteIds.Nodup)
    (hcover : ∀ s ∈ (db.notes.filter (fun n => n.book_id == bookId)).map (fun n => n.id),
      s ∈ noteIds) :
    (getNotes (updateNotesOrder bookId noteIds now db) (some bookId)).map
      (fun p => p.1.id) =
      noteIds.filter (fun s =>
        ((db.notes.filter (fun n => n.book_id == bookId)).map (fun n => n.id)).contains s) := by
  set u := reorderedRow bookId noteIds now with hu
  set F := db.notes.filter (fun n => n.book_id == bookId) with hF
  set db' := updateNotesOrder bookId noteIds now db with hdb'
  set bookIds := F.map (fun n => n.id) with hbookIds
  set ids : List String := noteIds.filter (fun s => bookIds.contains s) with hids
  have hFsub : ∀ r ∈ F, r ∈ db.notes := fun r hr => (List.mem_filter.mp hr).1
  have hFbook : ∀ r ∈ F, r.book_id = bookId := by
    intro r hr
    have := (List.mem_filter.mp hr).2
    simpa using this
  have hFid : ∀ r ∈ F, r.id ∈ noteIds := by
    intro r hr
    exact hcover r.id (List.mem_map.mpr ⟨r, hr, rfl⟩)
  have hstep2 : ∀ r ∈ F, u r =
      { r with sort_order := some ((noteIds.indexOf r.id : Nat) : Int), updated_at := now } := by
    intro r hr
    rw [hu]
    unfold reorderedRow
    rw [if_pos ⟨hFbook r hr, hFid r hr⟩]
  have hidsNodup : ids.Nodup := hnodup.filter _
  have hbookNodup : bookIds.Nodup := by
    rw [hbookIds, hF]
    exact List.Nodup.sublist (List.Sublist.map _ (List.filter_sublist db.notes)) hnodupDb
  have hsub1 : ids ⊆ bookIds := by
    intro s hs
    have := (List.mem_filter.mp hs).2
    simpa using this
  have hsub2 : bookIds ⊆ ids := by
    intro s hs
    refine List.mem_filter.mpr ⟨hcover s hs, ?_⟩
    simpa using hs
  have hpermIds : ids.Perm bookIds :=
    (List.subperm_of_subset hidsNodup hsub1).antisymm
      (List.subperm_of_subset hbookNodup hsub2)
  -- the candidate output: the book's rows in the order given by noteIds
  set rowFor : String → NoteRow :=
    fun s => (F.find? (fun r => r.id == s)).getD dummyNoteRow with hrowFor
  have hfind : ∀ s ∈ ids, rowFor s ∈ F ∧ (rowFor s).id = s := by
    intro s hs
    have hsF : s ∈ F.map (fun n => n.id) := hsub1 hs
    rcases List.mem_map.mp hsF with ⟨r, hrF, hrid⟩
    have hsome : (F.find? (fun r => r.id == s)).isSome = true :=
      List.find?_isSome.mpr ⟨r, hrF, by simp [hrid]⟩
    cases hf : F.find? (fun r => r.id == s) with
    | none => rw [hf] at hsome; cases hsome
    | some r' =>
      have h1 : r' ∈ F := List.mem_of_find?_eq_some hf
      have h2 : r'.id = s := by
        have := List.find?_some hf
        simpa using this
      rw [hrowFor]
      simp only [hf, Option.getD_some]
      exact ⟨h1, h2⟩
  set T : List NoteRow := ids.map (fun s => u (rowFor s)) with hT
  have hTid : T.map (fun r => r.id) = ids := by
    rw [hT, List.map_map]
    refine (List.map_congr_left (fun s hs => ?_)).trans (List.map_id ids)
    show (u (rowFor s)).id = s
    rw [hu, reorderedRow_id]
    exact (hfind s hs).2
  have hTsub : T ⊆ F.map u := by
    intro x hx
    rcases List.mem_map.mp hx with ⟨s, hs, hxs⟩
    exact List.mem_map.mpr ⟨rowFor s, (hfind s hs).1, hxs⟩
  have hTnodup : T.Nodup := List.Nodup.of_map (fun r => r.id) (by rw [hTid]; exact hidsNodup)
  have hlenB : bookIds.length = F.length := by
    rw [hbookIds, List.length_map]
  have hTlen : (F.map u).length ≤ T.length := by
    rw [hT, List.length_map, List.length_map, hpermIds.length_eq, hlenB]
  have hTperm : T.Perm (F.map u) :=
    (List.subperm_of_subset hTnodup hTsub).perm_of_length_le hTlen
  have hTsort : ∀ s ∈ ids, (u (rowFor s)).sort_order =
      some ((noteIds.indexOf s : Nat) : Int) := by
    intro s hs
    rw [hstep2 (rowFor s) (hfind s hs).1, (hfind s hs).2]
  have hTsorted : T.Pairwise (fun a b => noteLe a b = true) := by
    rw [hT, List.pairwise_map]
    have hpw : ids.Pairwise (fun s t => noteIds.indexOf s < noteIds.indexOf t) :=
      List.Pairwise.sublist (List.filter_sublist noteIds) (pairwise_indexOf_lt noteIds hnodup)
    refine hpw.imp_of_mem (fun {s} {t} hs ht hlt => ?_)
    exact noteLe_of_sort_lt _ _ _ _ (hTsort s hs) (hTsort t ht) (by exact_mod_cast hlt)
  have hanti : ∀ a ∈ sortBy noteLe (F.map u), ∀ b ∈ sortBy noteLe (F.map u),
      noteLe a b = true → noteLe b a = true → a = b := by
    intro a ha b hb hab hba
    have ha' : a ∈ F.map u := (perm_sortBy noteLe _).subset ha
    have hb' : b ∈ F.map u := (perm_sortBy noteLe _).subset hb
    rcases List.mem_map.mp ha' with ⟨r, hrF, hra⟩
    rcases List.mem_map.mp hb' with ⟨r', hr'F, hrb⟩
    by_cases hso : a.sort_order = b.sort_order
    · have hsa : a.sort_order = some ((noteIds.indexOf r.id : Nat) : Int) := by
        rw [← hra, hstep2 r hrF]
      have hsb : b.sort_order = some ((noteIds.indexOf r'.id : Nat) : Int) := by
        rw [← hrb, hstep2 r' hr'F]
      have hidx : noteIds.indexOf r.id = noteIds.indexOf r'.id := by
        rw [hsa, hsb] at hso
        have := Option.some.inj hso
        exact_mod_cast this
      have hid : r.id = r'.id :=
        (List.indexOf_inj (hFid r hrF) (hFid r' hr'F)).mp hidx
      have : r = r' :=
        List.inj_on_of_nodup_map hnodupDb (hFsub r hrF) (hFsub r' hr'F) hid
      rw [← hra, ← hrb, this]
    · exact absurd ⟨hab, hba⟩ (noteLe_antisymm_of_ne a b hso)
  have hsorteq : sortBy noteLe (F.map u) = T :=
    sorted_perm_eq noteLe _ _ ((perm_sortBy noteLe _).trans hTperm.symm)
      (sorted_sortBy noteLe noteLe_total noteLe_trans _) hTsorted hanti
  have hbeq : (bookId == "") = false := by
    simp only [beq_eq_false_iff_ne, ne_eq]
    exact hbid
  unfold getNotes
  simp only [hbeq, Bool.false_eq_true, if_false]
  rw [hdb', reorder_filter db bookId noteIds now hnodup, ← hF, ← hu, hsorteq,
    List.map_map]
  exact hTid

/-- C8: reorderNotes assigns sortOrder = index to each listed note that
belongs to the book (conjunct one), inside one transaction of infallible
UPDATE statements (the model is a total function, so no input errors).  Ids
in the list that do not belong to the book — whether they name a note of
another book or no note at all — are silently ignored: every row that is not
a listed note of the book is left exactly as it was (conjunct two).  A
subsequent listNotes returns the given sequence restricted to the ids that
belong to the book — the whole sequence when the list is exactly the book's
notes (conjunct three; the assigned sort orders are distinct, so the
pageNumber/createdAt tie-breaks never fire).  Calling reorderNotes a second
time with the same list leaves that listing unchanged (conjunct four), and
with the same timestamp the second call is literally a no-op on the store
(conjunct five). -/
theorem c8_reorder (db : DB) (bookId : String) (noteIds : List String) (now now2 : Int)
    (hbid : bookId ≠ "")
    (hnodupDb : (db.notes.map (fun n => n.id)).Nodup)
    (hnodup : noteIds.Nodup)
    (hcover : ∀ s ∈ (db.notes.filter (fun n => n.book_id == bookId)).map (fun n => n.id),
      s ∈ noteIds) :
    (∀ (i : Nat) (hi : i < noteIds.length), ∀ n ∈ db.notes,
      n.book_id = bookId → n.id = noteIds.get ⟨i, hi⟩ →
      { n with sort_order := some (i : Int), updated_at := now } ∈
        (updateNotesOrder bookId noteIds now db).notes) ∧
    (∀ n ∈ db.notes, n.book_id ≠ bookId ∨ n.id ∉ noteIds →
      n ∈ (updateNotesOrder bookId noteIds now db).notes) ∧
    (getNotes (updateNotesOrder bookId noteIds now db) (some bookId)).map
      (fun p => p.1.id) =
      noteIds.filter (fun s =>
        ((db.notes.filter (fun n => n.book_id == bookId)).map (fun n => n.id)).contains s) ∧
    (getNotes (updateNotesOrder bookId noteIds now2
        (updateNotesOrder bookId noteIds now db)) (some bookId)).map
      (fun p => p.1.id) =
      noteIds.filter (fun s =>
        ((db.notes.filter (fun n => n.book_id == bookId)).map (fun n => n.id)).contains s) ∧
    updateNotesOrder bookId noteIds now (updateNotesOrder bookId noteIds now db) =
      updateNotesOrder bookId noteIds now db := by
  have hnotes2 : (updateNotesOrder bookId noteIds now db).notes =
      db.notes.map (reorderedRow bookId noteIds now) := by
    rw [updateNotesOrder_eq bookId noteIds now db hnodup]
  refine ⟨?_, ?_, ?_, ?_, ?_⟩
  · intro i hi n hn hbook hid
    rw [hnotes2]
    refine List.mem_map.mpr ⟨n, hn, ?_⟩
    have hmem : n.id ∈ noteIds := by
      rw [hid]
      exact List.get_mem noteIds i hi
    have hidx : noteIds.indexOf n.id = i := by
      rw [hid]
      exact List.get_indexOf hnodup ⟨i, hi⟩
    unfold reorderedRow
    rw [if_pos ⟨hbook, hmem⟩, hidx]
  · intro n hn hor
    rw [hnotes2]
    refine List.mem_map.mpr ⟨n, hn, ?_⟩
    unfold reorderedRow
    rcases hor with hbook | hid
    · rw [if_neg (fun hc => hbook hc.1)]
    · rw [if_neg (fun hc => hid hc.2)]
  · exact reorder_listing db bookId noteIds now hbid hnodupDb hnodup hcover
  · have hf2 := reorder_filter db bookId noteIds now hnodup
    have hbookIds2 : ((updateNotesOrder bookId noteIds now db).notes.filter
        (fun n => n.book_id == bookId)).map (fun n => n.id) =
        (db.notes.filter (fun n => n.book_id == bookId)).map (fun n => n.id) := by
      rw [hf2, List.map_map]
      exact List.map_congr_left (fun r _ => reorderedRow_id bookId noteIds now r)
    have hnodupDb2 : ((updateNotesOrder bookId noteIds now db).notes.map
        (fun n => n.id)).Nodup := by
      rw [hnotes2, List.map_map]
      have heq : db.notes.map ((fun n => n.id) ∘ reorderedRow bookId noteIds now) =
          db.notes.map (fun n => n.id) :=
        List.map_congr_left (fun r _ => reorderedRow_id bookId noteIds now r)
      rw [heq]
      exact hnodupDb
    have hcover2 : ∀ s ∈ ((updateNotesOrder bookId noteIds now db).notes.filter
        (fun n => n.book_id == bookId)).map (fun n => n.id), s ∈ noteIds := by
      intro s hs
      rw [hbookIds2] at hs
      exact hcover s hs
    have h2 := reorder_listing (updateNotesOrder bookId noteIds now db) bookId noteIds now2
      hbid hnodupDb2 hnodup hcover2
    simp only [hbookIds2] at h2
    exact h2
  · rw [updateNotesOrder_eq bookId noteIds now _ hnodup, hnotes2, List.map_map]
    have heq : db.notes.map
        (reorderedRow bookId noteIds now ∘ reorderedRow bookId noteIds now) =
        db.notes.map (reorderedRow bookId noteIds now) :=
      List.map_congr_left (fun r _ => reorderedRow_idem bookId noteIds now r)
    rw [heq, ← hnotes2]

def c8db : DB :=
  { books := [],
    notes := [{ id := "n1", book_id := "b1", title := "t", page_number := 1,
                sort_order := some 0, created_at := 1, updated_at := 1 },
              { id := "n2", book_id := "b1", title := "t", page_number := 1,
                sort_order := some 1, created_at := 2, updated_at := 2 },
              { id := "n3", book_id := "b1", title := "t", page_number := 1,
                sort_order := some 2, created_at := 3, updated_at := 3 },
              { id := "n4", book_id := "b2", title := "t", page_number := 1,
                sort_order := some 0, created_at := 4, updated_at := 4 }],
    images := [] }

theorem c8_reorder_witness :
    ({ id := "n2", book_id := "b1", title := "t", page_number := 1,
       sort_order := some 0, created_at := 2, updated_at := 10 } : NoteRow) ∈
      (updateNotesOrder "b1" ["n2", "n1", "nZ", "n3", "n4"] 10 c8db).notes ∧
    ({ id := "n4", book_id := "b2", title := "t", page_number := 1,
       sort_order := some 0, created_at := 4, updated_at := 4 } : NoteRow) ∈
      (updateNotesOrder "b1" ["n2", "n1", "nZ", "n3", "n4"] 10 c8db).notes ∧
    (getNotes (updateNotesOrder "b1" ["n2", "n1", "nZ", "n3", "n4"] 10 c8db)
        (some "b1")).map (fun p => p.1.id) = ["n2", "n1", "n3"] ∧
    updateNotesOrder "b1" ["n2", "n1", "nZ", "n3", "n4"] 10
        (updateNotesOrder "b1" ["n2", "n1", "nZ", "n3", "n4"] 10 c8db) =
      updateNotesOrder "b1" ["n2", "n1", "nZ", "n3", "n4"] 10 c8db := by
  have h := c8_reorder c8db "b1" ["n2", "n1", "nZ", "n3", "n4"] 10 11
    (by decide) (by decide) (by decide) (by decide)
  refine ⟨?_, ?_, h.2.2.1.trans (by decide), h.2.2.2.2⟩
  · exact h.1 0 (by decide)
      { id := "n2", book_id := "b1", title := "t", page_number := 1,
        sort_order := some 1, created_at := 2, updated_at := 2 } (by decide) rfl rfl
  · exact h.2.1
      { id := "n4", book_id := "b2", title := "t", page_number := 1,
        sort_order := some 0, created_at := 4, updated_at := 4 } (by decide)
      (Or.inl (by decide))
end LazyRead
